import Mathlib

set_option autoImplicit false
set_option linter.unusedVariables false

/-!
Shallow embedding of `wordpress_to_markdown.py`: the sitemap discovery loop,
the two sitemap parsers, URL deduplication, the two filtering stages, the
article extractor, the filename derivation and one iteration of the
per-article driver loop.  External collaborators (the HTTP layer,
`xml.etree.ElementTree`, `BeautifulSoup`, `html2text`, the `datetime`
parsers) are represented either by abstract outcome types or by function
parameters, at exactly the interface the script consumes them.
-/

/-- Calendar date, as the script obtains one from `datetime.date` values. -/
structure PyDate where
  y : Nat
  m : Nat
  d : Nat
deriving DecidableEq, Repr

/-- Boolean date order `a ≤ b`, mirroring Python `date` comparison. -/
def PyDate.ble (a b : PyDate) : Bool :=
  Nat.blt a.y b.y ||
    (a.y == b.y && (Nat.blt a.m b.m || (a.m == b.m && Nat.ble a.d b.d)))

def isLeapYear (y : Nat) : Bool :=
  (y % 4 == 0 && y % 100 != 0) || y % 400 == 0

def daysInMonth (y m : Nat) : Nat :=
  if m == 2 then (if isLeapYear y then 29 else 28)
  else if m == 4 || m == 6 || m == 9 || m == 11 then 30
  else 31

def digitVal (c : Char) : Nat := c.toNat - '0'.toNat

/-- Concrete model of `datetime.strptime(s, "%Y-%m-%d").date()` (and of
`datetime.fromisoformat` restricted to zero-padded `YYYY-MM-DD` inputs),
used to instantiate the date-parsing collaborators on concrete inputs. -/
def parseYmd (s : String) : Option PyDate :=
  match s.data with
  | [y1, y2, y3, y4, '-', m1, m2, '-', d1, d2] =>
    if [y1, y2, y3, y4, m1, m2, d1, d2].all Char.isDigit then
      let y := ((digitVal y1 * 10 + digitVal y2) * 10 + digitVal y3) * 10 + digitVal y4
      let mo := digitVal m1 * 10 + digitVal m2
      let da := digitVal d1 * 10 + digitVal d2
      if 1 ≤ mo ∧ mo ≤ 12 ∧ 1 ≤ da ∧ da ≤ daysInMonth y mo then some ⟨y, mo, da⟩
      else none
    else none
  | _ => none

/-- One parsed XML element as `xml.etree.ElementTree` exposes it to the
script: a namespace URI (`""` when the element carries none), the local tag
name, optional text, and the list of direct children. -/
inductive XElem where
  | mk (ns tagName : String) (text : Option String) (children : List XElem)

def XElem.ns : XElem → String
  | .mk n _ _ _ => n

def XElem.tagOf : XElem → String
  | .mk _ t _ _ => t

def XElem.text : XElem → Option String
  | .mk _ _ tx _ => tx

def XElem.children : XElem → List XElem
  | .mk _ _ _ cs => cs

/-- Outcome of handing raw fetched sitemap content to `ET.fromstring`:
falsy content (`fetch_url` returned `None`, or the body was empty), content
that raises `ET.ParseError`, or a parsed document root. -/
inductive RawContent where
  | empty
  | unparseable
  | parsed (root : XElem)

def defaultSitemapNs : String := "http://www.sitemaps.org/schemas/sitemap/0.9"

/-- Namespace resolution of lines 104 and 120-122 of the script: the root's
own namespace URI when it has one, the standard sitemap namespace otherwise. -/
def effectiveNs (root : XElem) : String :=
  if root.ns == "" then defaultSitemapNs else root.ns

/-- ASCII model of the `\s` class and of the default `str.strip()`
character set. -/
def isPySpace (c : Char) : Bool :=
  c == ' ' || c == '\t' || c == '\n' || c == '\r' || c == '\x0b' || c == '\x0c'

/-- `s.strip()`. -/
def pyStrip (s : String) : String :=
  String.mk (((s.data.dropWhile isPySpace).reverse.dropWhile isPySpace).reverse)

/-- Models `el.text.strip() if el is not None and el.text else None` applied
to the result of `find(childTag)` on `parent`. -/
def childText (parent : XElem) (nsUri childTag : String) : Option String :=
  match parent.children.find? (fun c => c.ns == nsUri && c.tagOf == childTag) with
  | none => none
  | some el =>
    match el.text with
    | none => none
    | some t => if t == "" then none else some (pyStrip t)

def sitemapChildren (root : XElem) : List XElem :=
  root.children.filter (fun c => c.ns == effectiveNs root && c.tagOf == "sitemap")

def indexEntries (nsUri : String) : List XElem → List String
  | [] => []
  | sm :: rest =>
    match childText sm nsUri "loc" with
    | some u => u :: indexEntries nsUri rest
    | none => indexEntries nsUri rest

/-- `parse_sitemap_index` (script lines 97-111): falsy content yields `[]`,
a parse error is caught and yields the entries accumulated so far (none),
otherwise the stripped text of the `loc` child of every namespace-matching
`sitemap` child of the root, in document order. -/
def parse_sitemap_index : RawContent → List String
  | .empty => []
  | .unparseable => []
  | .parsed root => indexEntries (effectiveNs root) (sitemapChildren root)

def urlChildren (root : XElem) : List XElem :=
  root.children.filter (fun c => c.ns == effectiveNs root && c.tagOf == "url")

def leafEntries (nsUri : String) : List XElem → List (String × Option String)
  | [] => []
  | u :: rest =>
    match childText u nsUri "loc" with
    | none => leafEntries nsUri rest
    | some s =>
      if s == "" then leafEntries nsUri rest
      else (s, childText u nsUri "lastmod") :: leafEntries nsUri rest

/-- `parse_url_sitemap` (script lines 113-142): `None` on falsy content or
on a parse error, otherwise one `(address, lastModified)` pair per `url`
child whose `loc` text is truthy and strips to a non-empty string; the
`lastmod` text is stored as fetched, without date validation. -/
def parse_url_sitemap : RawContent → Option (List (String × Option String))
  | .empty => none
  | .unparseable => none
  | .parsed root => some (leafEntries (effectiveNs root) (urlChildren root))

/-- Per-`url`-element description of what `leafEntries` produces, used to
state its characterisation. -/
def leafEntryOf (nsUri : String) (u : XElem) : Option (String × Option String) :=
  match childText u nsUri "loc" with
  | none => none
  | some s => if s == "" then none else some (s, childText u nsUri "lastmod")

/-- A `url` element with a truthy `loc` that strips to a non-empty string. -/
def hasNonemptyLoc (nsUri : String) (u : XElem) : Bool :=
  match childText u nsUri "loc" with
  | none => false
  | some s => !(s == "")

def SITEMAP_SUFFIXES : List String :=
  ["/sitemap_index.xml", "/sitemap.xml", "/post-sitemap.xml",
   "/sitemap-pt-post-1.xml", "/sitemap-1.xml"]

/-- Auto-discovery loop of script lines 314-324.  `base ++ sfx` models
`urljoin(base_url, suffix.lstrip('/'))` for the origin-only `base_url` the
script builds.  `fetch` is the network collaborator.  An index hit extends
the accumulator with the child addresses and breaks out of the loop; a
candidate that parses only as a URL sitemap is appended and the loop
continues with the remaining candidates. -/
def discoverLoop (fetch : String → RawContent) (base : String) :
    List String → List String → Bool → List String × Bool
  | [], acc, found => (acc, found)
  | sfx :: rest, acc, found =>
    match fetch (base ++ sfx) with
    | RawContent.empty => discoverLoop fetch base rest acc found
    | c =>
      if (parse_sitemap_index c).isEmpty then
        match parse_url_sitemap c with
        | some _ => discoverLoop fetch base rest (acc ++ [base ++ sfx]) true
        | none => discoverLoop fetch base rest acc found
      else (acc ++ parse_sitemap_index c, true)

/-- Script lines 313-325: run the loop over the fixed suffix list and apply
the final `if not sitemap_found and sitemaps_to_process` fix-up. -/
def discover (fetch : String → RawContent) (base : String) : List String × Bool :=
  let r := discoverLoop fetch base SITEMAP_SUFFIXES [] false
  (r.1, r.2 || !r.1.isEmpty)

/-- One assignment `d[k] = v` on an insertion-ordered Python dict
represented as an association list: an existing key keeps its position but
its value is overwritten, a new key is appended. -/
def dictInsert (d : List (String × Option String)) (k : String) (v : Option String) :
    List (String × Option String) :=
  if d.any (fun p => p.1 == k) then d.map (fun p => if p.1 == k then (k, v) else p)
  else d ++ [(k, v)]

/-- Script lines 342-343:
`list({url: lastmod for url, lastmod in all_url_data}.items())`. -/
def pyDictItems (l : List (String × Option String)) : List (String × Option String) :=
  l.foldl (fun d p => dictInsert d p.1 p.2) []

def lookupVal (k : String) (d : List (String × Option String)) : Option (Option String) :=
  (d.find? (fun p => p.1 == k)).map Prod.snd

/-- The `lastModified` of the last occurrence of address `k` in `l`. -/
def lastVal (k : String) (l : List (String × Option String)) : Option (Option String) :=
  (l.reverse.find? (fun p => p.1 == k)).map Prod.snd

/-- Python truthiness of the `lastmod` value carried by an entry: `None`
and the empty string are falsy. -/
def pyFalsy : Option String → Bool
  | none => true
  | some s => s == ""

/-- Body of the `for url, lastmod_str in url_data` loop of
`filter_articles_by_date` (script lines 168-193).  `iso` is the
`datetime.fromisoformat(lastmod.replace('Z', '+00:00')).date()`
collaborator: `none` models a raised `ValueError`. -/
def filterLoop (iso : String → Option PyDate) (since : PyDate) (excl : Bool) :
    List (String × Option String) → List (String × Option String)
  | [] => []
  | (url, lm) :: rest =>
    if pyFalsy lm then
      (if excl then filterLoop iso since excl rest
       else (url, none) :: filterLoop iso since excl rest)
    else
      match lm with
      | some s =>
        (match iso s with
         | some d =>
           if PyDate.ble since d then (url, some s) :: filterLoop iso since excl rest
           else filterLoop iso since excl rest
         | none => filterLoop iso since excl rest)
      | none => filterLoop iso since excl rest

/-- `filter_articles_by_date` (script lines 144-196).  `strp` is the
`datetime.strptime(s, '%Y-%m-%d').date()` collaborator used on the
since-date; an absent since-date, like one it cannot parse, returns the
input unchanged. -/
def filter_articles_by_date (strp iso : String → Option PyDate)
    (url_data : List (String × Option String)) (since_date : Option String)
    (excl : Bool) : List (String × Option String) :=
  match since_date with
  | none => url_data
  | some s =>
    match strp s with
    | none => url_data
    | some dt => filterLoop iso dt excl url_data

/-- Match of `/(\d{4})/(\d{2})/(\d{2})/` at the head of the character list,
yielding the `"YYYY-MM-DD"` string that line 213 of the script builds from
the three groups.  `\d` is modelled over the ASCII digits. -/
def matchYmdAt : List Char → Option String
  | '/' :: y1 :: y2 :: y3 :: y4 :: '/' :: m1 :: m2 :: '/' :: d1 :: d2 :: '/' :: _ =>
    if [y1, y2, y3, y4, m1, m2, d1, d2].all Char.isDigit then
      some (String.mk [y1, y2, y3, y4, '-', m1, m2, '-', d1, d2])
    else none
  | _ => none

def searchYmd : List Char → Option String
  | [] => none
  | c :: rest =>
    match matchYmdAt (c :: rest) with
    | some r => some r
    | none => searchYmd rest

/-- Script lines 212-213: leftmost `re.search` of the URL-date pattern over
the full source address. -/
def ymdFromUrl (base_url : String) : Option String := searchYmd base_url.data

/-- The three pieces of an article page that the extractor reads via
`BeautifulSoup`: the stripped text of a truthy `h1.entry-title` result, the
`datetime` attribute of a truthy `time.entry-date` result that carries one,
and the raw HTML of the `div.entry-content` container. -/
structure ArticleHtml where
  entryTitle : Option String
  entryDateAttr : Option String
  entryContent : Option String

/-- Script lines 203-205: the title, with the `"Untitled Article"` sentinel. -/
def pyTitle (h : ArticleHtml) : String :=
  match h.entryTitle with
  | some t => t
  | none => "Untitled Article"

/-- Script lines 206-214: the publish date.  `iso` is the
`datetime.fromisoformat(a.replace('Z', '+00:00')).strftime('%Y-%m-%d')`
collaborator; `none` models a raised exception.  When the `datetime`
attribute is present its parse failure leaves the date `None`; the URL
fallback runs only when the attribute (or the element) is absent. -/
def pyDate (iso : String → Option String) (h : ArticleHtml) (base_url : String) :
    Option String :=
  match h.entryDateAttr with
  | some attr => iso attr
  | none => ymdFromUrl base_url

/-- Script lines 201-221 on truthy HTML: title, date, and the Markdown body
obtained by handing the content container to the `html2text` collaborator
`conv` (whose `none` models a raised exception). -/
def extract_article (iso conv : String → Option String) (h : ArticleHtml)
    (base_url : String) : String × Option String × Option String :=
  (pyTitle h, pyDate iso h base_url,
    match h.entryContent with
    | none => none
    | some c => conv c)

/-- `parse_and_convert_article` (script lines 198-221): `(None, None, None)`
on falsy HTML, otherwise the extraction triple. -/
def parse_and_convert_article (iso conv : String → Option String)
    (html : Option ArticleHtml) (base_url : String) :
    Option String × Option String × Option String :=
  match html with
  | none => (none, none, none)
  | some h =>
    let r := extract_article iso conv h base_url
    (some r.1, r.2.1, r.2.2)

/-- ASCII model of the `\w` class used by `clean_filename`. -/
def isWordChar (c : Char) : Bool := c.isAlphanum || c == '_'

/-- `re.sub(r'[^\w\-\s]', '', title)`. -/
def stripNonWord (l : List Char) : List Char :=
  l.filter (fun c => isWordChar c || c == '-' || isPySpace c)

/-- `re.sub(r'\s+', '-', s)`: every maximal whitespace run becomes one
hyphen.  The flag records whether the previous character was whitespace. -/
def collapseWsToHyphen : List Char → Bool → List Char
  | [], _ => []
  | c :: rest, prevWs =>
    if isPySpace c then
      (if prevWs then collapseWsToHyphen rest true
       else '-' :: collapseWsToHyphen rest true)
    else c :: collapseWsToHyphen rest false

/-- `s.strip('-')`. -/
def stripHyphens (l : List Char) : List Char :=
  ((l.dropWhile (fun c => c == '-')).reverse.dropWhile (fun c => c == '-')).reverse

/-- `re.sub(r'-+', '-', s)`. -/
def collapseHyphens : List Char → Bool → List Char
  | [], _ => []
  | c :: rest, prevH =>
    if c == '-' then
      (if prevH then collapseHyphens rest true else '-' :: collapseHyphens rest true)
    else c :: collapseHyphens rest false

/-- `s[:180].rsplit('-', 1)[0]`: everything before the last hyphen of the
truncation, the whole truncation when it has no hyphen. -/
def dropLastHyphenSegment (t : List Char) : List Char :=
  match (t.reverse.dropWhile (fun c => c != '-')) with
  | [] => t
  | _ :: restR => restR.reverse

def truncateStem (l : List Char) : List Char :=
  if 180 < l.length then dropLastHyphenSegment (l.take 180) else l

/-- Script lines 225-230: the cleaned filename stem, with the
`"unnamed-article"` sentinel for an empty result. -/
def cleanStem (title : String) : String :=
  let s1 := stripNonWord title.data
  let s2 := collapseWsToHyphen s1 false
  let s3 := stripHyphens s2
  let s4 := collapseHyphens s3 false
  let s5 := s4.map Char.toLower
  let s6 := truncateStem s5
  if s6.isEmpty then "unnamed-article" else String.mk s6

/-- `re.match(r'\d{4}-\d{2}-\d{2}', s)`: an anchored match at the start of
the string only — trailing characters are not inspected. -/
def ymdShapeAtStart (s : String) : Bool :=
  match s.data with
  | y1 :: y2 :: y3 :: y4 :: '-' :: m1 :: m2 :: '-' :: d1 :: d2 :: _ =>
    [y1, y2, y3, y4, m1, m2, d1, d2].all Char.isDigit
  | _ => false

/-- `clean_filename` (script lines 223-234): stem plus `.md`, with the date
string prepended exactly when it is truthy and `re.match` finds the digit
shape at its start. -/
def clean_filename (title : String) (date_str : Option String) : String :=
  let stem := cleanStem title
  match date_str with
  | some d =>
    if !(d == "") && ymdShapeAtStart d then d ++ "-" ++ stem ++ ".md"
    else stem ++ ".md"
  | none => stem ++ ".md"

/-- The character list after the first `://`, `none` when there is none. -/
def afterSchemeSep : List Char → Option (List Char)
  | [] => none
  | ':' :: '/' :: '/' :: rest => some rest
  | _ :: rest => afterSchemeSep rest

def notNetlocEnd (c : Char) : Bool := !(c == '/' || c == '?' || c == '#')

def notQueryStart (c : Char) : Bool := !(c == '?' || c == '#')

/-- Model of `urllib.parse.urlparse` restricted to what script lines
353-355 consume: the `(netloc, path)` pair of an absolute `scheme://...`
address (empty netloc and the whole string as path when `://` is absent). -/
def pyUrlparse (url : String) : String × String :=
  match afterSchemeSep url.data with
  | some rest =>
    (String.mk (rest.takeWhile notNetlocEnd),
     String.mk ((rest.dropWhile notNetlocEnd).takeWhile notQueryStart))
  | none => ("", String.mk (url.data.takeWhile notQueryStart))

/-- The day alternative of `/\d{4}/\d{2}(?:/\d{2})?/` after year and month
have matched: `/\d{2}/`. -/
def matchDayThenSlash : List Char → Bool
  | '/' :: d1 :: d2 :: '/' :: _ => d1.isDigit && d2.isDigit
  | _ => false

/-- The no-day alternative: the closing `/` directly after the month. -/
def matchSlash : List Char → Bool
  | '/' :: _ => true
  | _ => false

/-- Match of `/\d{4}/\d{2}(?:/\d{2})?/` at the head of the list. -/
def datedAt : List Char → Bool
  | '/' :: y1 :: y2 :: y3 :: y4 :: '/' :: m1 :: m2 :: rest =>
    [y1, y2, y3, y4, m1, m2].all Char.isDigit &&
      (matchDayThenSlash rest || matchSlash rest)
  | _ => false

def searchDated : List Char → Bool
  | [] => false
  | c :: rest => datedAt (c :: rest) || searchDated rest

/-- `url_pattern_regex.search(path)` of script line 349/355. -/
def datedPathSearch (path : String) : Bool := searchDated path.data

/-- Domain and URL-shape stage of script lines 349-357: keep an address
exactly when its netloc equals the target domain and the dated-article
pattern occurs in its path. -/
def domainPatternFilter (domain : String) :
    List (String × Option String) → List String
  | [] => []
  | (url, _) :: rest =>
    if (pyUrlparse url).1 == domain && datedPathSearch (pyUrlparse url).2 then
      url :: domainPatternFilter domain rest
    else domainPatternFilter domain rest

/-- Outcome of one iteration of the per-article loop (script lines
363-372). -/
inductive StepOutcome where
  | fetchFail
  | extractFail
  | saveOk (filename : String)
  | saveFail (filename : String)
deriving DecidableEq, Repr

/-- One iteration of the per-article loop.  `fetched` is the `fetch_url`
result (`none` for falsy content), `saveOk` the `save_markdown`
collaborator.  A falsy Markdown body (`None` or the empty string) skips the
article before any filename is derived or any write is attempted. -/
def process_article (iso conv : String → Option String) (saveOk : String → Bool)
    (fetched : Option ArticleHtml) (article_url : String) : StepOutcome :=
  match fetched with
  | none => StepOutcome.fetchFail
  | some h =>
    let r := extract_article iso conv h article_url
    match r.2.2 with
    | none => StepOutcome.extractFail
    | some md =>
      if md == "" then StepOutcome.extractFail
      else
        let filename := clean_filename r.1 r.2.1
        if saveOk filename then StepOutcome.saveOk filename
        else StepOutcome.saveFail filename

/-- Success/failure increments the driver adds to its counters for one loop
outcome. -/
def stepTally : StepOutcome → Nat × Nat
  | StepOutcome.saveOk _ => (1, 0)
  | _ => (0, 1)

/-- Zero-padded decimal rendering used to model `strftime('%Y-%m-%d')`. -/
def pad2 (n : Nat) : String := if n < 10 then "0" ++ toString n else toString n

def pad4 (n : Nat) : String :=
  if n < 10 then "000" ++ toString n
  else if n < 100 then "00" ++ toString n
  else if n < 1000 then "0" ++ toString n
  else toString n

/-- Concrete model of
`datetime.fromisoformat(a).strftime('%Y-%m-%d')` on zero-padded plain date
inputs, used to instantiate the attribute-date collaborator. -/
def isoAttrToYmd (s : String) : Option String :=
  (parseYmd s).map (fun d => pad4 d.y ++ "-" ++ pad2 d.m ++ "-" ++ pad2 d.d)

/-- A leaf sitemap root: one `url` child whose `loc` is non-empty and whose
`lastmod` text is not a date. -/
def exLeafRoot : XElem :=
  XElem.mk defaultSitemapNs "urlset" none
    [XElem.mk defaultSitemapNs "url" none
      [XElem.mk defaultSitemapNs "loc" (some "https://s.com/2024/03/10/a/") [],
       XElem.mk defaultSitemapNs "lastmod" (some "garbage") []]]

/-- An index sitemap root with one child sitemap. -/
def exIndexRoot : XElem :=
  XElem.mk defaultSitemapNs "sitemapindex" none
    [XElem.mk defaultSitemapNs "sitemap" none
      [XElem.mk defaultSitemapNs "loc" (some "https://s.com/post-sitemap.xml") []]]

/-- A network collaborator for which the first two discovery candidates are
both URL sitemaps. -/
def exFetchLeaf (url : String) : RawContent :=
  if url == "https://s.com/sitemap_index.xml" then RawContent.parsed exLeafRoot
  else if url == "https://s.com/sitemap.xml" then RawContent.parsed exLeafRoot
  else RawContent.empty

/-- A network collaborator with an index at the first candidate and a URL
sitemap at the second. -/
def exFetchIdx (url : String) : RawContent :=
  if url == "https://s.com/sitemap_index.xml" then RawContent.parsed exIndexRoot
  else if url == "https://s.com/sitemap.xml" then RawContent.parsed exLeafRoot
  else RawContent.empty

theorem find?_eq_none_of_any_false {d : List (String × Option String)} {k : String}
    (h : d.any (fun p => p.1 == k) = false) :
    d.find? (fun p => p.1 == k) = none := by
  rw [List.find?_eq_none]
  intro x hx hbe
  have : d.any (fun p => p.1 == k) = true := List.any_eq_true.mpr ⟨x, hx, hbe⟩
  rw [h] at this
  exact Bool.false_ne_true this

theorem lookupVal_map_replace_ne (d : List (String × Option String)) (k2 k : String)
    (v : Option String) (hne : k ≠ k2) :
    lookupVal k (d.map (fun p => if p.1 == k2 then (k2, v) else p)) = lookupVal k d := by
  induction d with
  | nil => rfl
  | cons p rest ih =>
    by_cases hp : p.1 = k2
    · have h1 : (p.1 == k2) = true := beq_iff_eq.mpr hp
      have h2 : (k2 == k) = false := by
        simp only [beq_eq_false_iff_ne]
        exact fun h => hne h.symm
      have h3 : (p.1 == k) = false := by
        simp only [beq_eq_false_iff_ne]
        intro h
        exact hne (h.symm.trans hp)
      simp [lookupVal, List.find?, h1, h2, h3] at ih ⊢
      exact ih
    · have h1 : (p.1 == k2) = false := by simp [beq_eq_false_iff_ne, hp]
      by_cases hk : p.1 = k
      · have h2 : (p.1 == k) = true := beq_iff_eq.mpr hk
        simp [lookupVal, List.find?, h1, h2]
      · have h2 : (p.1 == k) = false := by simp [beq_eq_false_iff_ne, hk]
        simp [lookupVal, List.find?, h1, h2] at ih ⊢
        exact ih

theorem lookupVal_map_replace_self (d : List (String × Option String)) (k2 : String)
    (v : Option String) (h : d.any (fun p => p.1 == k2) = true) :
    lookupVal k2 (d.map (fun p => if p.1 == k2 then (k2, v) else p)) = some v := by
  induction d with
  | nil => simp at h
  | cons p rest ih =>
    by_cases hp : p.1 = k2
    · have h1 : (p.1 == k2) = true := beq_iff_eq.mpr hp
      simp [lookupVal, List.find?, h1]
    · have h1 : (p.1 == k2) = false := by simp [beq_eq_false_iff_ne, hp]
      have h2 : rest.any (fun p => p.1 == k2) = true := by
        simp only [List.any_cons, h1, Bool.false_or] at h
        exact h
      have hred : lookupVal k2 ((p :: rest).map (fun q => if q.1 == k2 then (k2, v) else q))
          = lookupVal k2 (rest.map (fun q => if q.1 == k2 then (k2, v) else q)) := by
        rw [List.map_cons, if_neg (by simp [h1])]
        unfold lookupVal
        rw [List.find?_cons_of_neg _ (by simp [h1, hp])]
      rw [hred]
      exact ih h2

theorem lookupVal_dictInsert (d : List (String × Option String)) (k2 k : String)
    (v : Option String) :
    lookupVal k (dictInsert d k2 v) = if k = k2 then some v else lookupVal k d := by
  by_cases hany : d.any (fun p => p.1 == k2) = true
  · rw [dictInsert, if_pos hany]
    by_cases hk : k = k2
    · rw [if_pos hk, hk]
      exact lookupVal_map_replace_self d k2 v hany
    · rw [if_neg hk]
      exact lookupVal_map_replace_ne d k2 k v hk
  · have hany2 : d.any (fun p => p.1 == k2) = false := Bool.eq_false_iff.mpr hany
    rw [dictInsert, if_neg hany]
    by_cases hk : k = k2
    · subst hk
      have hf : d.find? (fun p => p.1 == k) = none := find?_eq_none_of_any_false hany2
      simp [lookupVal, List.find?_append, hf, List.find?]
    · have h2 : (k2 == k) = false := by
        simp only [beq_eq_false_iff_ne]
        exact fun h => hk h.symm
      rw [if_neg hk]
      simp only [lookupVal, List.find?_append, List.find?, h2]
      cases d.find? (fun p => p.1 == k) <;> rfl

theorem lastVal_cons (k : String) (p : String × Option String)
    (l : List (String × Option String)) :
    lastVal k (p :: l)
      = match lastVal k l with
        | some v => some v
        | none => if p.1 == k then some p.2 else none := by
  unfold lastVal
  rw [List.reverse_cons, List.find?_append]
  cases hf : l.reverse.find? (fun q => q.1 == k) with
  | none =>
    cases hpk : (p.1 == k) <;> simp [hf, List.find?, hpk]
  | some q => simp [hf]

theorem lookupVal_foldl_dictInsert (k : String) (l : List (String × Option String)) :
    ∀ d, lookupVal k (l.foldl (fun d p => dictInsert d p.1 p.2) d)
      = match lastVal k l with
        | some v => some v
        | none => lookupVal k d := by
  induction l with
  | nil =>
    intro d
    simp [lastVal]
  | cons p rest ih =>
    intro d
    rw [List.foldl_cons, ih, lastVal_cons]
    cases hl : lastVal k rest with
    | some v => rfl
    | none =>
      simp only
      rw [lookupVal_dictInsert]
      by_cases hk : k = p.1
      · rw [if_pos hk, if_pos (beq_iff_eq.mpr hk.symm)]
      · rw [if_neg hk, if_neg (by simp [beq_eq_false_iff_ne]; exact fun h => hk h.symm)]

theorem lookupVal_pyDictItems (k : String) (l : List (String × Option String)) :
    lookupVal k (pyDictItems l) = lastVal k l := by
  unfold pyDictItems
  rw [lookupVal_foldl_dictInsert]
  cases hl : lastVal k l with
  | some v => rfl
  | none => simp [lookupVal]

theorem keys_map_replace (d : List (String × Option String)) (k : String)
    (v : Option String) :
    (d.map (fun p => if p.1 == k then (k, v) else p)).map Prod.fst = d.map Prod.fst := by
  induction d with
  | nil => rfl
  | cons p rest ih =>
    by_cases hp : p.1 = k
    · simp only [List.map_cons, beq_iff_eq.mpr hp, if_true, ih]
      rw [hp]
    · simp only [List.map_cons, beq_eq_false_iff_ne.mpr hp, Bool.false_eq_true,
        if_false, ih]

theorem nodup_keys_dictInsert (d : List (String × Option String)) (k : String)
    (v : Option String) (h : (d.map Prod.fst).Nodup) :
    ((dictInsert d k v).map Prod.fst).Nodup := by
  by_cases hany : d.any (fun p => p.1 == k) = true
  · rw [dictInsert, if_pos hany, keys_map_replace]
    exact h
  · have hany2 : d.any (fun p => p.1 == k) = false := Bool.eq_false_iff.mpr hany
    rw [dictInsert, if_neg hany, List.map_append]
    rw [List.nodup_append]
    refine ⟨h, by simp, ?_⟩
    intro a ha hb
    simp only [List.map_cons, List.map_nil, List.mem_singleton] at hb
    obtain ⟨p, hp, hpa⟩ := List.mem_map.mp ha
    have : ¬ ((p.1 == k) = true) := by
      intro hc
      have : d.any (fun p => p.1 == k) = true := List.any_eq_true.mpr ⟨p, hp, hc⟩
      rw [hany2] at this
      exact Bool.false_ne_true this
    exact this (beq_iff_eq.mpr (hpa.trans hb))

theorem nodup_keys_pyDictItems (l : List (String × Option String)) :
    ((pyDictItems l).map Prod.fst).Nodup := by
  have haux : ∀ d : List (String × Option String), (d.map Prod.fst).Nodup →
      ((l.foldl (fun d p => dictInsert d p.1 p.2) d).map Prod.fst).Nodup := by
    induction l with
    | nil =>
      intro d hd
      simpa using hd
    | cons p rest ih =>
      intro d hd
      rw [List.foldl_cons]
      exact ih _ (nodup_keys_dictInsert d p.1 p.2 hd)
  exact haux [] (by simp)

/-- C1, counterexample: on the spec's own example the deduplication of
script line 342 keeps the `lastModified` of the **last** occurrence of the
duplicated address, so the result claimed by the specification — first
occurrence wins — is not what the code produces. -/
theorem C1_counterexample :
    pyDictItems [("A", some "2024-01-01"), ("A", some "2024-02-01"), ("B", none)]
      = [("A", some "2024-02-01"), ("B", none)]
    ∧ ("A", some "2024-01-01") ∉
        pyDictItems [("A", some "2024-01-01"), ("A", some "2024-02-01"), ("B", none)] := by
  constructor
  · decide
  · decide

/-- C1, amended: the deduplication step yields at most one entry per
address (the key list of the resulting dict is duplicate-free), and when
the same address occurs more than once the retained `lastModified` value is
the one from the **last** occurrence in collection order; in particular the
input `[(A, 2024-01-01), (A, 2024-02-01), (B, absent)]` yields exactly
`[(A, 2024-02-01), (B, absent)]`. -/
theorem C1_amended_thm (l : List (String × Option String)) (k : String) :
    ((pyDictItems l).map Prod.fst).Nodup
    ∧ lookupVal k (pyDictItems l) = lastVal k l := by
  exact ⟨nodup_keys_pyDictItems l, lookupVal_pyDictItems k l⟩

theorem discoverLoop_cons_index (fetch : String → RawContent) (base sfx : String)
    (rest acc : List String) (found : Bool)
    (hne : fetch (base ++ sfx) ≠ RawContent.empty)
    (hidx : (parse_sitemap_index (fetch (base ++ sfx))).isEmpty = false) :
    discoverLoop fetch base (sfx :: rest) acc found
      = (acc ++ parse_sitemap_index (fetch (base ++ sfx)), true) := by
  cases hc : fetch (base ++ sfx) with
  | empty => exact absurd hc hne
  | unparseable =>
    rw [hc] at hidx
    simp [parse_sitemap_index] at hidx
  | parsed root =>
    rw [hc] at hidx
    simp [discoverLoop, hc, hidx]

theorem discoverLoop_cons_leaf (fetch : String → RawContent) (base sfx : String)
    (rest acc : List String) (found : Bool)
    (hne : fetch (base ++ sfx) ≠ RawContent.empty)
    (hidx : (parse_sitemap_index (fetch (base ++ sfx))).isEmpty = true)
    (hleaf : (parse_url_sitemap (fetch (base ++ sfx))).isSome = true) :
    discoverLoop fetch base (sfx :: rest) acc found
      = discoverLoop fetch base rest (acc ++ [base ++ sfx]) true := by
  cases hc : fetch (base ++ sfx) with
  | empty => exact absurd hc hne
  | unparseable =>
    rw [hc] at hleaf
    simp [parse_url_sitemap] at hleaf
  | parsed root =>
    rw [hc] at hidx hleaf
    simp [discoverLoop, hc, hidx, parse_url_sitemap]

/-- C2, counterexample: with a network collaborator for which the first
candidate `/sitemap_index.xml` is successfully fetched and parsed as a URL
(leaf) sitemap, the discovery loop does **not** stop: the second candidate
`/sitemap.xml` is also fetched and contributes its own URL to the list of
sitemaps to process, contradicting "after any candidate is successfully
fetched and parsed as either an index or a leaf sitemap, no later candidate
in the list is fetched or contributes URLs". -/
theorem C2_counterexample :
    discover exFetchLeaf "https://s.com"
      = (["https://s.com/sitemap_index.xml", "https://s.com/sitemap.xml"], true)
    ∧ parse_url_sitemap (exFetchLeaf "https://s.com/sitemap_index.xml") ≠ none
    ∧ "https://s.com/sitemap.xml" ∈ (discover exFetchLeaf "https://s.com").1 := by
  refine ⟨by decide, by decide, by decide⟩

/-- C2, amended: the candidates are tried in the fixed order and the search
stops at the first candidate that parses as an **index** sitemap (the
result then consists of the leaf candidates collected so far plus the index
children, independent of the remaining candidates); a candidate that
parses only as a **leaf** sitemap is recorded and the loop continues with
the remaining candidates, so several leaf candidates can all contribute. -/
theorem C2_amended_thm (fetch : String → RawContent) (base s1 s2 : String)
    (rest1 alt rest2 acc1 acc2 : List String) (f1 f2 : Bool)
    (h1 : fetch (base ++ s1) ≠ RawContent.empty)
    (hidx1 : (parse_sitemap_index (fetch (base ++ s1))).isEmpty = false)
    (h2 : fetch (base ++ s2) ≠ RawContent.empty)
    (hidx2 : (parse_sitemap_index (fetch (base ++ s2))).isEmpty = true)
    (hleaf2 : (parse_url_sitemap (fetch (base ++ s2))).isSome = true) :
    (discoverLoop fetch base (s1 :: rest1) acc1 f1
        = (acc1 ++ parse_sitemap_index (fetch (base ++ s1)), true)
      ∧ discoverLoop fetch base (s1 :: rest1) acc1 f1
        = discoverLoop fetch base (s1 :: alt) acc1 f1)
    ∧ discoverLoop fetch base (s2 :: rest2) acc2 f2
        = discoverLoop fetch base rest2 (acc2 ++ [base ++ s2]) true := by
  refine ⟨⟨discoverLoop_cons_index fetch base s1 rest1 acc1 f1 h1 hidx1, ?_⟩,
    discoverLoop_cons_leaf fetch base s2 rest2 acc2 f2 h2 hidx2 hleaf2⟩
  rw [discoverLoop_cons_index fetch base s1 rest1 acc1 f1 h1 hidx1,
    discoverLoop_cons_index fetch base s1 alt acc1 f1 h1 hidx1]

/-- C2, witness: the amended theorem applied to a concrete collaborator
with an index sitemap at the first candidate and a leaf sitemap at the
second. -/
theorem C2_amended_witness :
    (discoverLoop exFetchIdx "https://s.com"
        ["/sitemap_index.xml", "/sitemap.xml"] [] false
        = ([] ++ parse_sitemap_index (exFetchIdx ("https://s.com" ++ "/sitemap_index.xml")), true)
      ∧ discoverLoop exFetchIdx "https://s.com"
          ["/sitemap_index.xml", "/sitemap.xml"] [] false
        = discoverLoop exFetchIdx "https://s.com" ["/sitemap_index.xml"] [] false)
    ∧ discoverLoop exFetchIdx "https://s.com" ["/sitemap.xml"] ["x"] false
        = discoverLoop exFetchIdx "https://s.com" []
            (["x"] ++ ["https://s.com" ++ "/sitemap.xml"]) true :=
  C2_amended_thm exFetchIdx "https://s.com" "/sitemap_index.xml" "/sitemap.xml"
    ["/sitemap.xml"] [] [] [] ["x"] false false
    (by simp [exFetchIdx]) (by decide) (by simp [exFetchIdx]) (by decide) (by decide)

/-- C3, counterexample: for an article page whose `entry-date` element
carries a `datetime` attribute that is present but unparseable, the
extractor leaves the publish date absent even though the source address's
path contains a perfectly usable `YYYY/MM/DD` pattern — the URL fallback of
lines 211-214 runs only when the attribute (or the element) is absent, not
when parsing the present attribute fails. -/
theorem C3_counterexample :
    isoAttrToYmd "not-a-date" = none
    ∧ ymdFromUrl "https://example.com/2024/03/10/title/" = some "2024-03-10"
    ∧ (parse_and_convert_article isoAttrToYmd (fun s => some s)
        (some ⟨some "T", some "not-a-date", some "c"⟩)
        "https://example.com/2024/03/10/title/").2.1 = none
    ∧ (none : Option String) ≠ some "2024-03-10" := by
  refine ⟨by decide, by decide, by decide, by decide⟩

/-- C3, amended: the publish date is taken from the machine-readable
`datetime` attribute when it is present and parseable; when the attribute
is **absent** the date falls back to the `YYYY/MM/DD` pattern of the source
address; when the attribute is present but **unparseable** the date is
simply absent — the URL fallback is not consulted.  In all cases the
extractor returns (non-fatally). -/
theorem C3_amended_thm (iso conv : String → Option String) (h1 h2 h3 : ArticleHtml)
    (url a1 a2 d : String)
    (ha1 : h1.entryDateAttr = some a1) (hia1 : iso a1 = some d)
    (ha2 : h2.entryDateAttr = some a2) (hia2 : iso a2 = none)
    (ha3 : h3.entryDateAttr = none) :
    (parse_and_convert_article iso conv (some h1) url).2.1 = some d
    ∧ (parse_and_convert_article iso conv (some h2) url).2.1 = none
    ∧ (parse_and_convert_article iso conv (some h3) url).2.1 = ymdFromUrl url := by
  refine ⟨?_, ?_, ?_⟩ <;>
    simp [parse_and_convert_article, extract_article, pyDate, ha1, hia1, ha2, hia2, ha3]

/-- C3, witness: the amended theorem at concrete article pages for the
three attribute situations. -/
theorem C3_amended_witness :
    (parse_and_convert_article isoAttrToYmd (fun s => some s)
        (some ⟨some "T", some "2024-03-09", some "c"⟩) "https://e.com/2024/03/10/t/").2.1
      = some "2024-03-09"
    ∧ (parse_and_convert_article isoAttrToYmd (fun s => some s)
        (some ⟨some "T", some "bad", some "c"⟩) "https://e.com/2024/03/10/t/").2.1 = none
    ∧ (parse_and_convert_article isoAttrToYmd (fun s => some s)
        (some ⟨some "T", none, some "c"⟩) "https://e.com/2024/03/10/t/").2.1
      = ymdFromUrl "https://e.com/2024/03/10/t/" :=
  C3_amended_thm isoAttrToYmd (fun s => some s)
    ⟨some "T", some "2024-03-09", some "c"⟩ ⟨some "T", some "bad", some "c"⟩
    ⟨some "T", none, some "c"⟩ "https://e.com/2024/03/10/t/" "2024-03-09" "bad"
    "2024-03-09" rfl (by decide) rfl (by decide) rfl

/-- One-entry description of the date-filter loop body, used to
characterise `filterLoop`. -/
def filterStep (iso : String → Option PyDate) (since : PyDate) (excl : Bool)
    (p : String × Option String) : Option (String × Option String) :=
  if pyFalsy p.2 then (if excl then none else some (p.1, none))
  else
    match p.2 with
    | some s =>
      (match iso s with
       | some d => if PyDate.ble since d then some (p.1, some s) else none
       | none => none)
    | none => none

theorem filterLoop_eq_filterMap (iso : String → Option PyDate) (since : PyDate)
    (excl : Bool) (l : List (String × Option String)) :
    filterLoop iso since excl l = l.filterMap (filterStep iso since excl) := by
  induction l with
  | nil => rfl
  | cons p rest ih =>
    obtain ⟨pu, plm⟩ := p
    rcases plm with _ | s
    · cases excl <;> simp [filterLoop, filterStep, pyFalsy, ih, List.filterMap_cons]
    · by_cases hs : s = ""
      · subst hs
        cases excl <;> simp [filterLoop, filterStep, pyFalsy, ih, List.filterMap_cons]
      · rcases his : iso s with _ | d
        · simp [filterLoop, filterStep, pyFalsy, hs, his, ih, List.filterMap_cons]
        · cases hble : PyDate.ble since d <;>
            simp [filterLoop, filterStep, pyFalsy, hs, his, hble, ih, List.filterMap_cons]

theorem filterStep_eq_some_pair (iso : String → Option PyDate) (since : PyDate)
    (excl : Bool) (hiso : iso "" = none) (p : String × Option String) (u lm : String) :
    filterStep iso since excl p = some (u, some lm)
      ↔ (p = (u, some lm) ∧ ∃ d, iso lm = some d ∧ PyDate.ble since d = true) := by
  obtain ⟨pu, plm⟩ := p
  constructor
  · intro h
    rcases plm with _ | s
    · cases excl <;> simp [filterStep, pyFalsy] at h
    · by_cases hs : s = ""
      · subst hs
        cases excl <;> simp [filterStep, pyFalsy] at h
      · rcases his : iso s with _ | d
        · simp [filterStep, pyFalsy, hs, his] at h
        · by_cases hb : PyDate.ble since d = true
          · simp [filterStep, pyFalsy, hs, his, hb] at h
            obtain ⟨h1, h2⟩ := h
            subst h1
            subst h2
            exact ⟨rfl, d, his, hb⟩
          · simp [filterStep, pyFalsy, hs, his, hb] at h
  · intro hpd
    obtain ⟨hp, d, hd, hb⟩ := hpd
    have h1 : pu = u := congrArg Prod.fst hp
    have h2 : plm = some lm := congrArg Prod.snd hp
    subst h1
    subst h2
    have hlm : ¬ lm = "" := by
      intro he
      rw [he, hiso] at hd
      exact Option.noConfusion hd
    simp [filterStep, pyFalsy, hlm, hd, hb]

theorem mem_filterLoop_some (iso : String → Option PyDate) (since : PyDate)
    (excl : Bool) (hiso : iso "" = none) (u lm : String)
    (l : List (String × Option String)) :
    (u, some lm) ∈ filterLoop iso since excl l
      ↔ ((u, some lm) ∈ l ∧ ∃ d, iso lm = some d ∧ PyDate.ble since d = true) := by
  rw [filterLoop_eq_filterMap, List.mem_filterMap]
  constructor
  · rintro ⟨p, hp, hstep⟩
    obtain ⟨hpe, hd⟩ := (filterStep_eq_some_pair iso since excl hiso p u lm).mp hstep
    subst hpe
    exact ⟨hp, hd⟩
  · rintro ⟨hp, hd⟩
    exact ⟨(u, some lm), hp,
      (filterStep_eq_some_pair iso since excl hiso (u, some lm) u lm).mpr ⟨rfl, hd⟩⟩

theorem not_mem_filterLoop_none (iso : String → Option PyDate) (since : PyDate)
    (u : String) (l : List (String × Option String)) :
    (u, none) ∉ filterLoop iso since true l := by
  rw [filterLoop_eq_filterMap, List.mem_filterMap]
  rintro ⟨p, hp, hstep⟩
  obtain ⟨pu, plm⟩ := p
  rcases plm with _ | s
  · simp [filterStep, pyFalsy] at hstep
  · by_cases hs : s = ""
    · subst hs
      simp [filterStep, pyFalsy] at hstep
    · rcases his : iso s with _ | d
      · simp [filterStep, pyFalsy, hs, his] at hstep
      · by_cases hb : PyDate.ble since d = true <;>
          simp [filterStep, pyFalsy, hs, his, hb] at hstep

theorem mem_filterLoop_none_false (iso : String → Option PyDate) (since : PyDate)
    (u : String) (l : List (String × Option String)) (h : (u, none) ∈ l) :
    (u, none) ∈ filterLoop iso since false l := by
  rw [filterLoop_eq_filterMap, List.mem_filterMap]
  exact ⟨(u, none), h, by simp [filterStep, pyFalsy]⟩

theorem not_mem_filterLoop_unparseable (iso : String → Option PyDate)
    (since : PyDate) (excl : Bool) (x bad : String) (hbad : iso bad = none)
    (l : List (String × Option String)) :
    (x, some bad) ∉ filterLoop iso since excl l := by
  rw [filterLoop_eq_filterMap, List.mem_filterMap]
  rintro ⟨p, hp, hstep⟩
  obtain ⟨pu, plm⟩ := p
  rcases plm with _ | s
  · cases excl <;> simp [filterStep, pyFalsy] at hstep
  · by_cases hs : s = ""
    · subst hs
      cases excl <;> simp [filterStep, pyFalsy] at hstep
    · rcases his : iso s with _ | d
      · simp [filterStep, pyFalsy, hs, his] at hstep
      · by_cases hb : PyDate.ble since d = true
        · simp [filterStep, pyFalsy, hs, his, hb] at hstep
          obtain ⟨h1, h2⟩ := hstep
          rw [h2] at his
          rw [his] at hbad
          exact Option.noConfusion hbad
        · simp [filterStep, pyFalsy, hs, his, hb] at hstep

/-- C4, counterexample: the `exclude_no_date` knob governs only the
absent-lastModified branch of the filter (script lines 169-177); a truthy
but unparseable lastModified reaches the date parse and its caught
`ValueError` (lines 188-193) skips the entry unconditionally.  With the
knob off, the undated entry `("v", none)` is kept but the unparseable entry
`("u", "garbage")` is still excluded, so "an entry with an absent or
unparseable lastModified is kept instead when the exclude_no_date knob is
off" is false for the unparseable case. -/
theorem C4_counterexample :
    parseYmd "garbage" = none
    ∧ filter_articles_by_date parseYmd parseYmd
        [("u", some "garbage")] (some "2024-01-15") false = []
    ∧ ("u", some "garbage") ∉ filter_articles_by_date parseYmd parseYmd
        [("u", some "garbage")] (some "2024-01-15") false
    ∧ ("v", none) ∈ filter_articles_by_date parseYmd parseYmd
        [("v", none)] (some "2024-01-15") false := by
  refine ⟨by decide, by decide, by decide, by decide⟩

/-- C4, amended: with no since-date the date-filter stage returns the
entries unchanged; with a since-date `s` parsing to `sd`, an entry carrying
a lastModified string is kept if and only if that string parses to a
calendar date on or after `sd` (the collaborator `iso` models
`fromisoformat(..).date()`, so time-of-day and offset are already
normalised away); an entry with an **absent** lastModified is excluded
under the default policy (`excl = true`) and kept — normalised to an absent
value — when the knob is off; an entry with a present but **unparseable**
lastModified is excluded regardless of the knob. -/
theorem C4_amended_thm (strp iso : String → Option PyDate) (hiso : iso "" = none)
    (l : List (String × Option String)) (s : String) (sd : PyDate)
    (hs : strp s = some sd) (u lm w v x bad : String)
    (hv : (v, none) ∈ l) (hbad : iso bad = none) :
    filter_articles_by_date strp iso l none true = l
    ∧ ((u, some lm) ∈ filter_articles_by_date strp iso l (some s) true
        ↔ ((u, some lm) ∈ l ∧ ∃ d, iso lm = some d ∧ PyDate.ble sd d = true))
    ∧ (w, none) ∉ filter_articles_by_date strp iso l (some s) true
    ∧ (v, none) ∈ filter_articles_by_date strp iso l (some s) false
    ∧ (x, some bad) ∉ filter_articles_by_date strp iso l (some s) true
    ∧ (x, some bad) ∉ filter_articles_by_date strp iso l (some s) false := by
  refine ⟨rfl, ?_, ?_, ?_, ?_, ?_⟩
  · simp only [filter_articles_by_date, hs]
    exact mem_filterLoop_some iso sd true hiso u lm l
  · simp only [filter_articles_by_date, hs]
    exact not_mem_filterLoop_none iso sd w l
  · simp only [filter_articles_by_date, hs]
    exact mem_filterLoop_none_false iso sd v l hv
  · simp only [filter_articles_by_date, hs]
    exact not_mem_filterLoop_unparseable iso sd true x bad hbad l
  · simp only [filter_articles_by_date, hs]
    exact not_mem_filterLoop_unparseable iso sd false x bad hbad l

/-- C4, witness: the amended theorem at the spec's own example — since-date
`2024-01-15`, entries dated `2024-01-15`, `2024-01-14`, undated, and one
with an unparseable lastModified — plus the concrete evaluations: under the
default policy only the first entry survives, and with the knob off the
undated entry is additionally kept while the unparseable one stays
excluded. -/
theorem C4_amended_witness :
    (filter_articles_by_date parseYmd parseYmd
        [("a", some "2024-01-15"), ("b", some "2024-01-14"), ("c", none),
         ("u", some "garbage")] none true
        = [("a", some "2024-01-15"), ("b", some "2024-01-14"), ("c", none),
           ("u", some "garbage")]
      ∧ (("a", some "2024-01-15") ∈ filter_articles_by_date parseYmd parseYmd
            [("a", some "2024-01-15"), ("b", some "2024-01-14"), ("c", none),
             ("u", some "garbage")] (some "2024-01-15") true
          ↔ (("a", some "2024-01-15") ∈
              ([("a", some "2024-01-15"), ("b", some "2024-01-14"), ("c", none),
                ("u", some "garbage")] : List (String × Option String))
            ∧ ∃ d, parseYmd "2024-01-15" = some d
                ∧ PyDate.ble ⟨2024, 1, 15⟩ d = true))
      ∧ ("c", none) ∉ filter_articles_by_date parseYmd parseYmd
          [("a", some "2024-01-15"), ("b", some "2024-01-14"), ("c", none),
           ("u", some "garbage")] (some "2024-01-15") true
      ∧ ("c", none) ∈ filter_articles_by_date parseYmd parseYmd
          [("a", some "2024-01-15"), ("b", some "2024-01-14"), ("c", none),
           ("u", some "garbage")] (some "2024-01-15") false
      ∧ ("u", some "garbage") ∉ filter_articles_by_date parseYmd parseYmd
          [("a", some "2024-01-15"), ("b", some "2024-01-14"), ("c", none),
           ("u", some "garbage")] (some "2024-01-15") true
      ∧ ("u", some "garbage") ∉ filter_articles_by_date parseYmd parseYmd
          [("a", some "2024-01-15"), ("b", some "2024-01-14"), ("c", none),
           ("u", some "garbage")] (some "2024-01-15") false)
    ∧ filter_articles_by_date parseYmd parseYmd
        [("a", some "2024-01-15"), ("b", some "2024-01-14"), ("c", none),
         ("u", some "garbage")] (some "2024-01-15") true
      = [("a", some "2024-01-15")]
    ∧ filter_articles_by_date parseYmd parseYmd
        [("a", some "2024-01-15"), ("b", some "2024-01-14"), ("c", none),
         ("u", some "garbage")] (some "2024-01-15") false
      = [("a", some "2024-01-15"), ("c", none)] :=
  ⟨C4_amended_thm parseYmd parseYmd (by decide)
      [("a", some "2024-01-15"), ("b", some "2024-01-14"), ("c", none),
       ("u", some "garbage")]
      "2024-01-15" ⟨2024, 1, 15⟩ (by decide) "a" "2024-01-15" "c" "c" "u" "garbage"
      (by decide) (by decide),
    by decide, by decide⟩

theorem leafEntries_eq_filterMap (nsUri : String) (us : List XElem) :
    leafEntries nsUri us = us.filterMap (leafEntryOf nsUri) := by
  induction us with
  | nil => rfl
  | cons u rest ih =>
    rcases hc : childText u nsUri "loc" with _ | s
    · simp [leafEntries, leafEntryOf, hc, ih, List.filterMap_cons]
    · by_cases hs : s = ""
      · subst hs
        simp [leafEntries, leafEntryOf, hc, ih, List.filterMap_cons]
      · simp [leafEntries, leafEntryOf, hc, hs, ih, List.filterMap_cons]

theorem length_filterMap_leafEntryOf (nsUri : String) (us : List XElem) :
    (us.filterMap (leafEntryOf nsUri)).length
      = (us.filter (hasNonemptyLoc nsUri)).length := by
  induction us with
  | nil => rfl
  | cons u rest ih =>
    rcases hc : childText u nsUri "loc" with _ | s
    · simp [leafEntryOf, hasNonemptyLoc, hc, ih, List.filterMap_cons, List.filter_cons]
    · by_cases hs : s = ""
      · subst hs
        simp [leafEntryOf, hasNonemptyLoc, hc, ih, List.filterMap_cons, List.filter_cons]
      · simp [leafEntryOf, hasNonemptyLoc, hc, hs, ih, List.filterMap_cons, List.filter_cons]

/-- C5, counterexample: a `url` element whose `loc` is present and whose
`lastmod` text `"garbage"` is not parseable as a date yields an entry whose
`lastModified` is the retained string `some "garbage"`, **not** an absent
value — the leaf parser performs no date validation at all. -/
theorem C5_counterexample :
    parse_url_sitemap (RawContent.parsed exLeafRoot)
      = some [("https://s.com/2024/03/10/a/", some "garbage")]
    ∧ parseYmd "garbage" = none
    ∧ (some "garbage" : Option String) ≠ none := by
  refine ⟨by decide, by decide, by decide⟩

/-- C5, amended: for every leaf sitemap XML that parses, the parser never
fails (the result is `some` list) and produces exactly one entry per `url`
element with a non-empty location — elements without a location (or with an
empty one) are skipped, an element with a location but an absent or empty
`lastmod` yields an entry with `lastModified` absent, and a non-empty
`lastmod` string is retained verbatim, its date validation being deferred
to the filtering stage (all of this is the content of `leafEntryOf`). -/
theorem C5_amended_thm (root : XElem) :
    parse_url_sitemap (RawContent.parsed root)
      = some ((urlChildren root).filterMap (leafEntryOf (effectiveNs root)))
    ∧ ((urlChildren root).filterMap (leafEntryOf (effectiveNs root))).length
      = ((urlChildren root).filter (hasNonemptyLoc (effectiveNs root))).length := by
  refine ⟨?_, length_filterMap_leafEntryOf _ _⟩
  simp [parse_url_sitemap, leafEntries_eq_filterMap]

/-- C6: an article page lacking the `entry-content` container, or one whose
container fails Markdown conversion, makes the extractor return the title
and date with an absent body (it never throws — the embedding is a total
function); the driver step classifies such an article as `extractFail`,
which carries no filename and is tallied as a failure, and — since the
outcome is not a save outcome — no persistence is attempted. -/
theorem C6_thm (iso conv : String → Option String) (saveOk : String → Bool)
    (h1 h2 : ArticleHtml) (url c : String)
    (hc1 : h1.entryContent = none)
    (hc2 : h2.entryContent = some c) (hconv : conv c = none) :
    parse_and_convert_article iso conv (some h1) url
      = (some (pyTitle h1), pyDate iso h1 url, none)
    ∧ parse_and_convert_article iso conv (some h2) url
      = (some (pyTitle h2), pyDate iso h2 url, none)
    ∧ process_article iso conv saveOk (some h1) url = StepOutcome.extractFail
    ∧ process_article iso conv saveOk (some h2) url = StepOutcome.extractFail
    ∧ stepTally StepOutcome.extractFail = (0, 1) := by
  refine ⟨?_, ?_, ?_, ?_, rfl⟩ <;>
    simp [parse_and_convert_article, process_article, extract_article, hc1, hc2, hconv]

/-- C6, witness: the theorem at a concrete page without the content
container and a concrete page whose conversion fails. -/
theorem C6_witness :
    parse_and_convert_article isoAttrToYmd (fun _ => none)
        (some ⟨some "T", some "2024-03-09", none⟩) "https://e.com/2024/03/10/t/"
      = (some (pyTitle ⟨some "T", some "2024-03-09", none⟩),
         pyDate isoAttrToYmd ⟨some "T", some "2024-03-09", none⟩
           "https://e.com/2024/03/10/t/", none)
    ∧ parse_and_convert_article isoAttrToYmd (fun _ => none)
        (some ⟨some "T", some "2024-03-09", some "c"⟩) "https://e.com/2024/03/10/t/"
      = (some (pyTitle ⟨some "T", some "2024-03-09", some "c"⟩),
         pyDate isoAttrToYmd ⟨some "T", some "2024-03-09", some "c"⟩
           "https://e.com/2024/03/10/t/", none)
    ∧ process_article isoAttrToYmd (fun _ => none) (fun _ => true)
        (some ⟨some "T", some "2024-03-09", none⟩) "https://e.com/2024/03/10/t/"
      = StepOutcome.extractFail
    ∧ process_article isoAttrToYmd (fun _ => none) (fun _ => true)
        (some ⟨some "T", some "2024-03-09", some "c"⟩) "https://e.com/2024/03/10/t/"
      = StepOutcome.extractFail
    ∧ stepTally StepOutcome.extractFail = (0, 1) :=
  C6_thm isoAttrToYmd (fun _ => none) (fun _ => true)
    ⟨some "T", some "2024-03-09", none⟩ ⟨some "T", some "2024-03-09", some "c"⟩
    "https://e.com/2024/03/10/t/" "c" rfl rfl rfl

/-- C7: the leaf-sitemap parser distinguishes unparseable content from
parsed-but-empty content — content that cannot be parsed at all (including
falsy content) returns `none`, the failure value distinct from any list,
while a document that parses but contains no `url` elements returns
`some []`, the empty list. -/
theorem C7_thm (root : XElem) (hroot : urlChildren root = []) :
    parse_url_sitemap RawContent.unparseable = none
    ∧ parse_url_sitemap RawContent.empty = none
    ∧ parse_url_sitemap (RawContent.parsed root) = some [] := by
  refine ⟨rfl, rfl, ?_⟩
  simp [parse_url_sitemap, hroot, leafEntries]

/-- C7, witness: the theorem at a concrete parsed document without `url`
elements (an index sitemap). -/
theorem C7_witness :
    parse_url_sitemap RawContent.unparseable = none
    ∧ parse_url_sitemap RawContent.empty = none
    ∧ parse_url_sitemap (RawContent.parsed exIndexRoot) = some [] :=
  C7_thm exIndexRoot rfl

theorem mem_domainPatternFilter (domain u : String)
    (l : List (String × Option String)) :
    u ∈ domainPatternFilter domain l →
      ((pyUrlparse u).1 = domain ∧ datedPathSearch (pyUrlparse u).2 = true) := by
  induction l with
  | nil =>
    intro h
    simp [domainPatternFilter] at h
  | cons p rest ih =>
    obtain ⟨pu, plm⟩ := p
    intro h
    by_cases hc : ((pyUrlparse pu).1 == domain && datedPathSearch (pyUrlparse pu).2) = true
    · rw [domainPatternFilter, if_pos hc] at h
      rcases List.mem_cons.mp h with he | hm
      · subst he
        obtain ⟨hc1, hc2⟩ := Bool.and_eq_true_iff.mp hc
        exact ⟨beq_iff_eq.mp hc1, hc2⟩
      · exact ih hm
    · rw [domainPatternFilter, if_neg hc] at h
      exact ih h

theorem mem_domainPatternFilter_of (domain u : String) (lm : Option String)
    (l : List (String × Option String))
    (h1 : (pyUrlparse u).1 = domain) (h2 : datedPathSearch (pyUrlparse u).2 = true) :
    (u, lm) ∈ l → u ∈ domainPatternFilter domain l := by
  induction l with
  | nil =>
    intro h
    simp at h
  | cons p rest ih =>
    intro hmem
    obtain ⟨pu, plm⟩ := p
    rcases List.mem_cons.mp hmem with he | hm
    · have hpu : pu = u := (congrArg Prod.fst he).symm
      subst hpu
      have hc : ((pyUrlparse pu).1 == domain && datedPathSearch (pyUrlparse pu).2) = true := by
        rw [Bool.and_eq_true_iff]
        exact ⟨beq_iff_eq.mpr h1, h2⟩
      rw [domainPatternFilter, if_pos hc]
      exact List.mem_cons_self _ _
    · by_cases hc : ((pyUrlparse pu).1 == domain && datedPathSearch (pyUrlparse pu).2) = true
      · rw [domainPatternFilter, if_pos hc]
        exact List.mem_cons_of_mem _ (ih hm)
      · rw [domainPatternFilter, if_neg hc]
        exact ih hm

/-- C8: an address reaching the domain/shape stage is kept if and only if
its host component (the netloc the script compares) equals the target
domain and its path contains the dated-article pattern — a `/`-delimited
4-digit year followed by a 2-digit month and an optional 2-digit day. -/
theorem C8_thm (domain u : String) (lm : Option String)
    (l : List (String × Option String)) (hmem : (u, lm) ∈ l) :
    u ∈ domainPatternFilter domain l
      ↔ ((pyUrlparse u).1 = domain ∧ datedPathSearch (pyUrlparse u).2 = true) := by
  constructor
  · exact mem_domainPatternFilter domain u l
  · rintro ⟨h1, h2⟩
    exact mem_domainPatternFilter_of domain u lm l h1 h2 hmem

/-- C8, witness: the theorem at the spec's three examples, plus the
concrete evaluation — the same-domain dated address passes, the
foreign-domain address and the dateless path are excluded. -/
theorem C8_witness :
    ("https://example.com/2024/03/10/title/" ∈ domainPatternFilter "example.com"
        [("https://example.com/2024/03/10/title/", none),
         ("https://other.com/2024/03/10/title/", none),
         ("https://example.com/about/", none)]
      ↔ ((pyUrlparse "https://example.com/2024/03/10/title/").1 = "example.com"
          ∧ datedPathSearch (pyUrlparse "https://example.com/2024/03/10/title/").2 = true))
    ∧ domainPatternFilter "example.com"
        [("https://example.com/2024/03/10/title/", none),
         ("https://other.com/2024/03/10/title/", none),
         ("https://example.com/about/", none)]
      = ["https://example.com/2024/03/10/title/"] :=
  ⟨C8_thm "example.com" "https://example.com/2024/03/10/title/" none
      [("https://example.com/2024/03/10/title/", none),
       ("https://other.com/2024/03/10/title/", none),
       ("https://example.com/about/", none)] (by decide),
    by decide⟩

theorem string_mk_ne_empty (l : List Char) (h : l.isEmpty = false) :
    String.mk l ≠ "" := by
  intro hc
  have hl : l = [] := by
    have := congrArg String.data hc
    simpa using this
  rw [hl] at h
  simp at h

theorem cleanStem_ne_empty (t : String) : cleanStem t ≠ "" := by
  simp only [cleanStem]
  split
  · decide
  · next h => exact string_mk_ne_empty _ (Bool.eq_false_iff.mpr h)

/-- C9, counterexample: the date test of line 231 is `re.match`, an
anchored prefix match without calendar validation, so the invalid date
string `"2024-03-10xyz"` is prepended to the filename instead of yielding
the stem-only filename the claim requires for an invalid date. -/
theorem C9_counterexample :
    clean_filename "Hello" (some "2024-03-10xyz") = "2024-03-10xyz-hello.md"
    ∧ "2024-03-10xyz-hello.md" ≠ "hello.md"
    ∧ parseYmd "2024-03-10xyz" = none := by
  refine ⟨by decide, by decide, by decide⟩

/-- C9, amended: the filename is the cleaned stem (lowercased, non-word
characters stripped, whitespace collapsed to hyphens, hyphen runs
collapsed, leading/trailing hyphens trimmed, truncated at 180 characters
preferring a hyphen boundary, `"unnamed-article"` when empty — the stem is
never empty) with `.md` appended; the date string is prepended with a
hyphen exactly when it is truthy and **starts with** the `\d{4}-\d{2}-\d{2}`
digit shape (a prefix match with no calendar validation); an absent date or
one not starting with that shape yields the stem-only filename. -/
theorem C9_amended_thm (t d e : String) (hd : ymdShapeAtStart d = true)
    (he : ymdShapeAtStart e = false) :
    clean_filename t (some d) = d ++ "-" ++ cleanStem t ++ ".md"
    ∧ clean_filename t (some e) = cleanStem t ++ ".md"
    ∧ clean_filename t none = cleanStem t ++ ".md"
    ∧ cleanStem t ≠ "" := by
  have hdd : d ≠ "" := by
    intro hc
    rw [hc] at hd
    exact absurd hd (by decide)
  have hdne : (d == "") = false := beq_eq_false_iff_ne.mpr hdd
  refine ⟨?_, ?_, rfl, cleanStem_ne_empty t⟩
  · simp [clean_filename, hd, hdne]
  · simp [clean_filename, he]

/-- C9, witness: the amended theorem at the spec's example title and date,
plus the two concrete evaluations of the specification. -/
theorem C9_amended_witness :
    (clean_filename "Hello, World! 2024" (some "2024-03-10")
        = "2024-03-10" ++ "-" ++ cleanStem "Hello, World! 2024" ++ ".md"
      ∧ clean_filename "Hello, World! 2024" (some "invalid")
        = cleanStem "Hello, World! 2024" ++ ".md"
      ∧ clean_filename "Hello, World! 2024" none
        = cleanStem "Hello, World! 2024" ++ ".md"
      ∧ cleanStem "Hello, World! 2024" ≠ "")
    ∧ clean_filename "Hello, World! 2024" (some "2024-03-10")
      = "2024-03-10-hello-world-2024.md"
    ∧ clean_filename "" none = "unnamed-article.md" :=
  ⟨C9_amended_thm "Hello, World! 2024" "2024-03-10" "invalid" (by decide) (by decide),
    by decide, by decide⟩

/-- C10: the index-sitemap parser is a total function returning a list for
every input; on falsy (empty) content and on unparseable content it returns
the empty list, and a parsed document declaring no child sitemaps also
returns the empty list — the three situations are indistinguishable from
its result alone. -/
theorem C10_thm (root : XElem) (hroot : sitemapChildren root = []) :
    parse_sitemap_index RawContent.empty = []
    ∧ parse_sitemap_index RawContent.unparseable = []
    ∧ parse_sitemap_index (RawContent.parsed root) = [] := by
  refine ⟨rfl, rfl, ?_⟩
  simp [parse_sitemap_index, hroot, indexEntries]

/-- C10, witness: the theorem at a concrete parsed document with no child
sitemaps (a perfectly valid leaf sitemap), showing the empty result is
indistinguishable from the failure cases. -/
theorem C10_witness :
    parse_sitemap_index RawContent.empty = []
    ∧ parse_sitemap_index RawContent.unparseable = []
    ∧ parse_sitemap_index (RawContent.parsed exLeafRoot) = [] :=
  C10_thm exLeafRoot rfl
